import Mathlib

/-!
Verification of the queue-sqlite task queue engine.

Shallow embedding of the TypeScript sources:
- src/types.ts: the QueueMessage record and its status enumeration.
- src/database.ts: the QueueDatabase operations over the queue_messages
  table (addMessage, getNextMessage, markMessageComplete,
  markMessageFailed, rescheduleMessage).
- src/worker.ts: the QueueWorker success path after a claimed message is
  processed (interval and cron reschedule branches) and the dispatch
  request it posts to the parent thread.
- queue-manager.ts (QueueManager): addMessage default handling and the
  processResult reply it sends back to a worker.

Instants (Date values, ISO strings in SQLite) are modelled as integers
in milliseconds: ISO-8601 UTC strings compare lexicographically in the
same order as the instants they denote.  The store is the list of rows
of the queue_messages table together with the AUTOINCREMENT counter.
Every mutating statement takes the current time as an explicit `now`
argument standing for CURRENT_TIMESTAMP / new Date().  The better-sqlite3
transaction in getNextMessage serializes conflicting claims, so the
transaction body is modelled as one pure function on the store and
concurrent callers as sequential composition of such functions.
-/

namespace QueueSqlite

/-- Status enumeration from src/types.ts (QueueMessage.status). -/
inductive Status where
  | pending
  | processing
  | completed
  | failed
  | scheduled
deriving DecidableEq, Repr

/-- One row of the queue_messages table (QueueMessage in src/types.ts).
The id is assigned by AUTOINCREMENT; interval and cronPattern are the
nullable columns.  All numeric columns are SQLite INTEGERs, modelled as
Int; id is the positive rowid, modelled as Nat. -/
structure QueueMessage where
  id : Nat
  queue : String
  payload : String
  status : Status
  startAt : Int
  retryCount : Int
  maxRetries : Int
  interval : Option Int
  respawnCount : Int
  maxRespawns : Int
  cronPattern : Option String
  createdAt : Int
  updatedAt : Int
deriving DecidableEq, Repr

/-- The queue_messages table: its rows plus the AUTOINCREMENT counter. -/
structure Store where
  messages : List QueueMessage
  nextId : Nat
deriving DecidableEq, Repr

/-- SELECT * FROM queue_messages WHERE id = ? (first matching row, as
better-sqlite3 .get returns). -/
def findMessage (s : Store) (id : Nat) : Option QueueMessage :=
  s.messages.find? (fun r => decide (r.id = id))

/-- UPDATE queue_messages SET ... WHERE id = ?: applies the row update f
to every row whose id matches (the primary key makes at most one). -/
def updateWhere (id : Nat) (f : QueueMessage → QueueMessage) (s : Store) : Store :=
  { s with messages := s.messages.map (fun r => if r.id = id then f r else r) }

/-- ORDER BY startAt ASC LIMIT 1 over a candidate list: one row of
minimal startAt (SQLite leaves the choice among ties unspecified; this
model keeps the first minimal row in table order). -/
def pickMin : List QueueMessage → Option QueueMessage
  | [] => none
  | m :: rest =>
    match pickMin rest with
    | none => some m
    | some b => if b.startAt < m.startAt then some b else some m

/-- QueueDatabase.getNextMessage (src/database.ts): inside one
transaction, SELECT the row with status = pending and startAt <= now
ordered by startAt ascending limit 1; if found, UPDATE that row to
status = processing (updatedAt = CURRENT_TIMESTAMP) and return the
selected snapshot.  Returns the selected row and the post-transaction
store. -/
def getNextMessage (now : Int) (s : Store) : Option QueueMessage × Store :=
  match pickMin (s.messages.filter
      (fun m => decide (m.status = Status.pending ∧ m.startAt ≤ now))) with
  | none => (none, s)
  | some m =>
    (some m,
     updateWhere m.id (fun r => { r with status := Status.processing, updatedAt := now }) s)

/-- QueueDatabase.markMessageComplete (src/database.ts): UPDATE the row
to status = completed, updatedAt = CURRENT_TIMESTAMP. -/
def markMessageComplete (now : Int) (id : Nat) (s : Store) : Store :=
  updateWhere id (fun r => { r with status := Status.completed, updatedAt := now }) s

/-- QueueDatabase.markMessageFailed (src/database.ts): SELECT the row by
id, then branch on retryCount < maxRetries.  When no row exists the
source dereferences undefined (message.retryCount throws a TypeError),
modelled as none; otherwise the row is updated and the new store
returned. -/
def markMessageFailed (now : Int) (id : Nat) (s : Store) : Option Store :=
  match findMessage s id with
  | none => none
  | some m =>
    if m.retryCount < m.maxRetries then
      some (updateWhere id
        (fun r => { r with status := Status.pending, retryCount := r.retryCount + 1,
                           updatedAt := now }) s)
    else
      some (updateWhere id
        (fun r => { r with status := Status.failed, updatedAt := now }) s)

/-- QueueDatabase.rescheduleMessage (src/database.ts): UPDATE the row to
startAt = nextRunTime, status = pending, updatedAt = CURRENT_TIMESTAMP. -/
def rescheduleMessage (now : Int) (id : Nat) (nextRunTime : Int) (s : Store) : Store :=
  updateWhere id
    (fun r => { r with startAt := nextRunTime, status := Status.pending, updatedAt := now }) s

/-! Producer layer: QueueManager.addMessage (queue-manager.ts). -/

/-- JavaScript `x || d` on an optional number option: undefined and the
falsy value 0 both fall back to the default.  (NaN, the other falsy
number, has no counterpart among SQLite INTEGERs and is not modelled.) -/
def jsOrInt (v : Option Int) (dflt : Int) : Int :=
  match v with
  | none => dflt
  | some x => if x = 0 then dflt else x

/-- The options record accepted by QueueManager.addMessage.  The payload
field stands for the JSON.stringify image of the caller payload, which
the engine treats as an opaque string. -/
structure AddMessageOptions where
  queue : String
  payload : String
  startAt : Option Int
  maxRetries : Option Int
  interval : Option Int
  maxRespawns : Option Int
  cronPattern : Option String
deriving DecidableEq, Repr

/-- The message record QueueManager.addMessage builds before handing it
to QueueDatabase.addMessage: status pending, startAt = options.startAt
|| new Date() (a Date object is always truthy, so || is an undefined
check here), retryCount 0, maxRetries = options.maxRetries || 0,
respawnCount 0, maxRespawns = options.maxRespawns || -1, interval and
cronPattern passed through. -/
def mkStoredMessage (now : Int) (id : Nat) (o : AddMessageOptions) : QueueMessage :=
  { id := id
    queue := o.queue
    payload := o.payload
    status := Status.pending
    startAt := o.startAt.getD now
    retryCount := 0
    maxRetries := jsOrInt o.maxRetries 0
    interval := o.interval
    respawnCount := 0
    maxRespawns := jsOrInt o.maxRespawns (-1)
    cronPattern := o.cronPattern
    createdAt := now
    updatedAt := now }

/-- QueueManager.addMessage followed by QueueDatabase.addMessage: the
INSERT appends the new row with the next AUTOINCREMENT rowid and
returns that id. -/
def addMessage (now : Int) (o : AddMessageOptions) (s : Store) : Nat × Store :=
  (s.nextId,
   { messages := s.messages ++ [mkStoredMessage now s.nextId o],
     nextId := s.nextId + 1 })

/-! Worker layer: QueueWorker.start success path and the dispatch
protocol (src/worker.ts, queue-manager.ts). -/

/-- One rescheduleMessage invocation issued by the worker: the target
row id and the nextRunTime argument. -/
structure RescheduleCall where
  id : Nat
  time : Int
deriving DecidableEq, Repr

/-- The recurrence step QueueWorker.start runs after processMessage
resolves and markMessageComplete ran (src/worker.ts): first the
interval branch, guarded by the truthiness of message.interval (null
and 0 are falsy) and the respawn cap, rescheduling to new Date() +
interval; then, independently, the cron branch, guarded by the
truthiness of message.cronPattern (null and the empty string are
falsy), rescheduling to the instant computed by the external
cron-parser library, taken here as the argument cronNext.  The message
m is the snapshot getNextMessage returned at claim time.  Returns the
new store and, for analysis, the list of rescheduleMessage calls in
issue order. -/
def handleSuccess (now cronNext : Int) (m : QueueMessage) (s : Store) :
    Store × List RescheduleCall :=
  let s1 := markMessageComplete now m.id s
  let p2 : Store × List RescheduleCall :=
    match m.interval with
    | none => (s1, [])
    | some i =>
      if i = 0 then (s1, [])
      else if m.maxRespawns = -1 ∨ m.respawnCount < m.maxRespawns then
        (rescheduleMessage now m.id (now + i) s1, [⟨m.id, now + i⟩])
      else (s1, [])
  match m.cronPattern with
  | none => p2
  | some p =>
    if p = "" then p2
    else (rescheduleMessage now m.id cronNext p2.1, p2.2 ++ [⟨m.id, cronNext⟩])

/-- One full worker iteration in which the claimed message (if any) is
processed successfully: getNextMessage, then markMessageComplete and
the recurrence step of QueueWorker.start. -/
def workerCycleSuccess (nowClaim nowDone cronNext : Int) (s : Store) : Store :=
  match getNextMessage nowClaim s with
  | (some m, s1) => (handleSuccess nowDone cronNext m s1).1
  | (none, s1) => s1

/-- The message QueueWorker.processMessage posts to the parent thread. -/
structure DispatchRequest where
  type : String
  queue : String
  payload : String
  messageId : Option Nat
deriving DecidableEq, Repr

/-- The processResult message QueueManager sends back to the worker. -/
structure DispatchResult where
  type : String
  messageId : Option Nat
  isError : Bool
deriving DecidableEq, Repr

/-- QueueWorker.processMessage (src/worker.ts) posts an object literal
with only the fields type = "process", queue = message.queue and
payload: it has no messageId property, so messageId is undefined,
modelled as none. -/
def processRequest (m : QueueMessage) : DispatchRequest :=
  { type := "process", queue := m.queue, payload := m.payload, messageId := none }

/-- The reply QueueManager.start builds for a type = "process" request
(queue-manager.ts): postMessage with type "processResult" and
messageId := data.messageId echoed from the request; isError records
whether the emitQueueEvent call threw. -/
def managerReply (req : DispatchRequest) (isError : Bool) : DispatchResult :=
  { type := "processResult", messageId := req.messageId, isError := isError }

/-- The guard of the message handler QueueWorker.processMessage
installs while awaiting the result: data.type === "processResult" &&
data.messageId === message.id. -/
def workerAccepts (m : QueueMessage) (d : DispatchResult) : Bool :=
  decide (d.type = "processResult") && decide (d.messageId = some m.id)

/-! Helper lemmas about the query building blocks. -/

theorem pickMin_eq_none : ∀ {l : List QueueMessage}, pickMin l = none → l = []
  | [], _ => rfl
  | a :: t, h => by
    unfold pickMin at h
    cases hp : pickMin t <;> rw [hp] at h
    · exact Option.noConfusion h
    · next b =>
      have h2 : (if b.startAt < a.startAt then some b else some a) = none := h
      split at h2 <;> exact Option.noConfusion h2

theorem pickMin_mem : ∀ {l : List QueueMessage} {m : QueueMessage}, pickMin l = some m → m ∈ l
  | [], m, h => by simp [pickMin] at h
  | a :: t, m, h => by
    unfold pickMin at h
    cases hp : pickMin t <;> rw [hp] at h
    · have h2 : a = m := Option.some_inj.mp h
      subst h2
      exact List.mem_cons_self a t
    · next b =>
      have h2 : (if b.startAt < a.startAt then some b else some a) = some m := h
      split at h2 <;> rw [Option.some_inj] at h2 <;> subst h2
      · exact List.mem_cons_of_mem a (pickMin_mem hp)
      · exact List.mem_cons_self a t

theorem pickMin_le : ∀ {l : List QueueMessage} {m : QueueMessage}, pickMin l = some m →
    ∀ x ∈ l, m.startAt ≤ x.startAt
  | [], m, h => by simp [pickMin] at h
  | a :: t, m, h => by
    intro x hx
    unfold pickMin at h
    cases hp : pickMin t <;> rw [hp] at h
    · have h2 : a = m := Option.some_inj.mp h
      subst h2
      rcases List.mem_cons.mp hx with hxa | hxt
      · exact hxa ▸ le_refl _
      · exact absurd (pickMin_eq_none hp ▸ hxt) (List.not_mem_nil x)
    · next b =>
      have h2 : (if b.startAt < a.startAt then some b else some a) = some m := h
      rcases List.mem_cons.mp hx with hxa | hxt
      · subst hxa
        split at h2 <;> rw [Option.some_inj] at h2 <;> subst h2
        · next hlt => exact le_of_lt hlt
        · exact le_refl _
      · split at h2 <;> rw [Option.some_inj] at h2 <;> subst h2
        · exact pickMin_le hp x hxt
        · next hnlt => exact le_trans (le_of_not_lt hnlt) (pickMin_le hp x hxt)

/-- Looking up an id after an UPDATE ... WHERE id = ? sees the image of
the old row under the update, provided the update keeps the id. -/
theorem find_map_update (id : Nat) (f : QueueMessage → QueueMessage)
    (hf : ∀ r, (f r).id = r.id) :
    ∀ l : List QueueMessage,
      (l.map (fun r => if r.id = id then f r else r)).find? (fun r => decide (r.id = id)) =
        (l.find? (fun r => decide (r.id = id))).map f
  | [] => rfl
  | a :: t => by
    by_cases h : a.id = id
    · simp [List.find?_cons, h, hf]
    · simp [List.find?_cons, h, find_map_update id f hf t]

theorem findMessage_updateWhere (s : Store) (id : Nat) (f : QueueMessage → QueueMessage)
    (hf : ∀ r, (f r).id = r.id) :
    findMessage (updateWhere id f s) id = (findMessage s id).map f :=
  find_map_update id f hf s.messages

/-- Core content of QueueDatabase.getNextMessage on the hit path: the
returned snapshot is a stored row, it is pending and due, it is
oldest-by-startAt among the pending due rows, and the post-transaction
store is exactly the input store with that row marked processing. -/
theorem getNextMessage_some {now : Int} {s : Store} {m : QueueMessage} {s' : Store}
    (h : getNextMessage now s = (some m, s')) :
    m ∈ s.messages ∧ m.status = Status.pending ∧ m.startAt ≤ now ∧
    (∀ x ∈ s.messages, x.status = Status.pending → x.startAt ≤ now →
       m.startAt ≤ x.startAt) ∧
    s' = updateWhere m.id
      (fun r => { r with status := Status.processing, updatedAt := now }) s := by
  unfold getNextMessage at h
  cases hp : pickMin (s.messages.filter
      (fun x => decide (x.status = Status.pending ∧ x.startAt ≤ now))) <;> rw [hp] at h
  · exact absurd h (by simp)
  · next b =>
    rw [Prod.mk.injEq, Option.some_inj] at h
    obtain ⟨rfl, rfl⟩ := h
    have hmem := pickMin_mem hp
    rw [List.mem_filter] at hmem
    obtain ⟨hin, hpred⟩ := hmem
    have hpred2 : b.status = Status.pending ∧ b.startAt ≤ now := of_decide_eq_true hpred
    refine ⟨hin, hpred2.1, hpred2.2, ?_, rfl⟩
    intro x hx hxs hxt
    exact pickMin_le hp x (List.mem_filter.mpr ⟨hx, decide_eq_true ⟨hxs, hxt⟩⟩)

/-- Core content of QueueDatabase.getNextMessage on the miss path: when
no stored row is pending and due, the call returns undefined and the
transaction leaves the table untouched. -/
theorem getNextMessage_none {now : Int} {s : Store}
    (h : ∀ x ∈ s.messages, x.status = Status.pending → x.startAt ≤ now → False) :
    getNextMessage now s = (none, s) := by
  unfold getNextMessage
  have hfil : s.messages.filter
      (fun x => decide (x.status = Status.pending ∧ x.startAt ≤ now)) = [] := by
    rw [List.filter_eq_nil_iff]
    intro x hx
    simp only [decide_eq_true_eq, not_and]
    exact fun hs ht => h x hx hs ht
  rw [hfil]
  rfl

/-! Claim C1. -/

/-- C1: a message whose stored status is processing is never returned by
getNextMessage, and two serialized claims (the transaction serializes
concurrent callers) never return the same message: with pairwise
distinct row ids, any claim result differs in id from every stored
processing row, and the results of two consecutive claims differ in id,
so at most one worker holds any given message. -/
theorem c1_no_double_claim (s : Store)
    (hids : (s.messages.map QueueMessage.id).Nodup) :
    (∀ now m r s', m ∈ s.messages → m.status = Status.processing →
       getNextMessage now s = (some r, s') → r.id ≠ m.id) ∧
    (∀ now1 now2 m1 s1 m2 s2,
       getNextMessage now1 s = (some m1, s1) →
       getNextMessage now2 s1 = (some m2, s2) → m1.id ≠ m2.id) := by
  constructor
  · intro now m r s' hm hst h hEq
    obtain ⟨hrin, hrstat, -, -, -⟩ := getNextMessage_some h
    have hrm : r = m := List.inj_on_of_nodup_map hids hrin hm hEq
    rw [hrm, hst] at hrstat
    exact Status.noConfusion hrstat
  · intro now1 now2 m1 s1 m2 s2 h1 h2 hEq
    obtain ⟨-, -, -, -, hs1⟩ := getNextMessage_some h1
    obtain ⟨h2in, h2stat, -, -, -⟩ := getNextMessage_some h2
    subst hs1
    simp only [updateWhere] at h2in
    rcases List.mem_map.mp h2in with ⟨r, hr, hfr⟩
    by_cases hid : r.id = m1.id
    · rw [if_pos hid] at hfr
      rw [← hfr] at h2stat
      exact Status.noConfusion h2stat
    · rw [if_neg hid] at hfr
      rw [← hfr] at hEq
      exact hid hEq.symm

/-- A processing row, for exercising the claim lemmas on concrete data. -/
def msgP1 : QueueMessage :=
  { id := 1, queue := "q", payload := "a", status := Status.processing, startAt := 0,
    retryCount := 0, maxRetries := 0, interval := none, respawnCount := 0,
    maxRespawns := -1, cronPattern := none, createdAt := 0, updatedAt := 0 }

/-- A pending row due at 3. -/
def msgP2 : QueueMessage :=
  { msgP1 with id := 2, payload := "b", status := Status.pending, startAt := 3 }

/-- A pending row due at 5. -/
def msgP3 : QueueMessage :=
  { msgP1 with id := 3, payload := "c", status := Status.pending, startAt := 5 }

/-- Concrete table with one processing and two pending rows. -/
def demoStore1 : Store := { messages := [msgP1, msgP2, msgP3], nextId := 4 }

/-- C1 witness: on demoStore1 the first claim returns row 2, which is
neither the processing row 1 nor the row 3 returned by the next claim. -/
theorem c1_no_double_claim_witness : msgP2.id ≠ msgP1.id ∧ msgP2.id ≠ msgP3.id :=
  ⟨(c1_no_double_claim demoStore1 (by decide)).1 10 msgP1 msgP2
     (getNextMessage 10 demoStore1).2 (by decide) (by decide) (by decide),
   (c1_no_double_claim demoStore1 (by decide)).2 10 11 msgP2
     (getNextMessage 10 demoStore1).2 msgP3
     (getNextMessage 11 (getNextMessage 10 demoStore1).2).2 (by decide) (by decide)⟩

/-! Claim C2. -/

/-- C2: getNextMessage returns a stored pending row that is due
(startAt at most now) and oldest by startAt among all such rows, and in
the same atomic unit the returned store is the input store with exactly
that row set to processing; when no pending due row exists it returns
none with the store unchanged. -/
theorem c2_getNextMessage_oldest_atomic (now : Int) (s : Store) :
    (∀ m s', getNextMessage now s = (some m, s') →
       m ∈ s.messages ∧ m.status = Status.pending ∧ m.startAt ≤ now ∧
       (∀ x ∈ s.messages, x.status = Status.pending → x.startAt ≤ now →
          m.startAt ≤ x.startAt) ∧
       s' = updateWhere m.id
         (fun r => { r with status := Status.processing, updatedAt := now }) s) ∧
    ((∀ x ∈ s.messages, ¬(x.status = Status.pending ∧ x.startAt ≤ now)) →
       getNextMessage now s = (none, s)) := by
  refine ⟨fun m s' h => getNextMessage_some h, fun h => getNextMessage_none ?_⟩
  intro x hx hs ht
  exact h x hx ⟨hs, ht⟩

/-- A pending row due at 5, private to the C2 demonstration. -/
def msgA : QueueMessage :=
  { id := 1, queue := "q", payload := "p1", status := Status.pending, startAt := 5,
    retryCount := 0, maxRetries := 0, interval := none, respawnCount := 0,
    maxRespawns := -1, cronPattern := none, createdAt := 0, updatedAt := 0 }

/-- A pending row due at 3, private to the C2 demonstration. -/
def msgB : QueueMessage := { msgA with id := 2, payload := "p2", startAt := 3 }

/-- Concrete table with two pending rows due at 5 and 3. -/
def demoStore2 : Store := { messages := [msgA, msgB], nextId := 3 }

/-- C2 witness: at now = 10 the claim on demoStore2 returns row 2, the
pending row with the smaller startAt. -/
theorem c2_getNextMessage_oldest_atomic_witness :
    msgB ∈ demoStore2.messages ∧ msgB.status = Status.pending ∧ msgB.startAt ≤ 10 :=
  let h := (c2_getNextMessage_oldest_atomic 10 demoStore2).1 msgB
    (getNextMessage 10 demoStore2).2 (by decide)
  ⟨h.1, h.2.1, h.2.2.1⟩

/-! Claim C6. -/

/-- C6: markMessageFailed reads the stored retryCount and maxRetries;
below the limit it re-pends the row and increments retryCount by
exactly one leaving startAt (and every other column except status,
retryCount, updatedAt) unchanged, otherwise it terminally fails the
row; consequently a row satisfying retryCount at most maxRetries still
satisfies it afterwards. -/
theorem c6_markMessageFailed_retry_policy (now : Int) (id : Nat) (s : Store)
    (m : QueueMessage) (hfind : findMessage s id = some m) :
    (m.retryCount < m.maxRetries →
       markMessageFailed now id s =
         some (updateWhere id (fun r =>
           { r with status := Status.pending, retryCount := r.retryCount + 1,
                    updatedAt := now }) s) ∧
       findMessage (updateWhere id (fun r =>
           { r with status := Status.pending, retryCount := r.retryCount + 1,
                    updatedAt := now }) s) id =
         some { m with status := Status.pending, retryCount := m.retryCount + 1,
                       updatedAt := now }) ∧
    (m.maxRetries ≤ m.retryCount →
       markMessageFailed now id s =
         some (updateWhere id (fun r =>
           { r with status := Status.failed, updatedAt := now }) s) ∧
       findMessage (updateWhere id (fun r =>
           { r with status := Status.failed, updatedAt := now }) s) id =
         some { m with status := Status.failed, updatedAt := now }) ∧
    (m.retryCount ≤ m.maxRetries →
       ∀ s' m', markMessageFailed now id s = some s' →
         findMessage s' id = some m' → m'.retryCount ≤ m'.maxRetries) := by
  have hpend := findMessage_updateWhere s id
    (fun r => { r with status := Status.pending, retryCount := r.retryCount + 1,
                       updatedAt := now }) (fun r => rfl)
  have hfail := findMessage_updateWhere s id
    (fun r => { r with status := Status.failed, updatedAt := now }) (fun r => rfl)
  refine ⟨fun hlt => ⟨?_, ?_⟩, fun hge => ⟨?_, ?_⟩, fun hle s' m' heq hfind2 => ?_⟩
  · simp only [markMessageFailed, hfind]
    rw [if_pos hlt]
  · rw [hpend, hfind]
    rfl
  · simp only [markMessageFailed, hfind]
    rw [if_neg (not_lt.mpr hge)]
  · rw [hfail, hfind]
    rfl
  · simp only [markMessageFailed, hfind] at heq
    by_cases hlt : m.retryCount < m.maxRetries
    · rw [if_pos hlt, Option.some_inj] at heq
      subst heq
      rw [hpend, hfind] at hfind2
      rw [Option.map_some', Option.some_inj] at hfind2
      subst hfind2
      simpa using Int.add_one_le_iff.mpr hlt
    · rw [if_neg hlt, Option.some_inj] at heq
      subst heq
      rw [hfail, hfind] at hfind2
      rw [Option.map_some', Option.some_inj] at hfind2
      subst hfind2
      simpa using hle

/-- A row with one retry left, private to the C6 demonstration. -/
def msgF6 : QueueMessage :=
  { id := 1, queue := "q", payload := "f", status := Status.processing, startAt := 7,
    retryCount := 0, maxRetries := 1, interval := none, respawnCount := 0,
    maxRespawns := -1, cronPattern := none, createdAt := 0, updatedAt := 0 }

/-- Concrete table holding msgF6. -/
def demoStore6 : Store := { messages := [msgF6], nextId := 2 }

/-- C6 witness: failing msgF6 (0 of 1 retries used) re-pends it with
retryCount 1 and startAt still 7. -/
theorem c6_markMessageFailed_retry_policy_witness :
    markMessageFailed 9 1 demoStore6 =
      some (updateWhere 1 (fun r =>
        { r with status := Status.pending, retryCount := r.retryCount + 1,
                 updatedAt := 9 }) demoStore6) ∧
    findMessage (updateWhere 1 (fun r =>
        { r with status := Status.pending, retryCount := r.retryCount + 1,
                 updatedAt := 9 }) demoStore6) 1 =
      some { msgF6 with status := Status.pending, retryCount := msgF6.retryCount + 1,
                        updatedAt := 9 } :=
  (c6_markMessageFailed_retry_policy 9 1 demoStore6 msgF6 (by decide)).1 (by decide)

/-! Claim C8. -/

/-- A pending row, private to the C8 demonstration. -/
def msgG8 : QueueMessage :=
  { id := 1, queue := "q", payload := "g", status := Status.processing, startAt := 0,
    retryCount := 0, maxRetries := 0, interval := none, respawnCount := 0,
    maxRespawns := -1, cronPattern := none, createdAt := 0, updatedAt := 0 }

/-- Concrete table holding msgG8. -/
def demoStore8 : Store := { messages := [msgG8], nextId := 2 }

/-- C8 counterexample: calling markMessageComplete twice does not leave
the store equal to the state after one call, because the second UPDATE
rewrites the audit column updatedAt to the later CURRENT_TIMESTAMP. -/
theorem c8_double_complete_counterexample :
    markMessageComplete 2 1 (markMessageComplete 1 1 demoStore8) ≠
      markMessageComplete 1 1 demoStore8 := by decide

/-- C8 amended: markMessageComplete sets the status to completed and
raises no error on repetition (it is a total operation); a second call
is a no-op on every column except the audit column updatedAt, which it
rewrites to the second call instant: completing twice equals completing
once at the second instant, and at equal instants the second call
changes nothing. -/
theorem c8_markMessageComplete_idempotent (t1 t2 : Int) (id : Nat) (s : Store) :
    markMessageComplete t2 id (markMessageComplete t1 id s) =
      markMessageComplete t2 id s ∧
    markMessageComplete t1 id (markMessageComplete t1 id s) =
      markMessageComplete t1 id s := by
  have key : ∀ t t' : Int, markMessageComplete t' id (markMessageComplete t id s) =
      markMessageComplete t' id s := by
    intro t t'
    simp only [markMessageComplete, updateWhere, List.map_map]
    congr 1
    apply List.map_congr_left
    intro r hr
    by_cases h : r.id = id <;> simp [h, Function.comp]
  exact ⟨key t1 t2, key t1 t1⟩

/-! Claim C9. -/

/-- C9: because QueueManager.addMessage applies the maxRespawns default
with the falsy-or expression options.maxRespawns || -1, passing 0
explicitly is stored as -1 (unbounded) and is indistinguishable at the
store from omitting the option. -/
theorem c9_maxRespawns_zero_is_unbounded (now : Int) (o : AddMessageOptions) (s : Store)
    (h : o.maxRespawns = some 0) :
    addMessage now o s = addMessage now { o with maxRespawns := none } s ∧
    (mkStoredMessage now s.nextId o).maxRespawns = -1 := by
  have hmk : ∀ id, mkStoredMessage now id o =
      mkStoredMessage now id { o with maxRespawns := none } := by
    intro id
    simp [mkStoredMessage, jsOrInt, h]
  refine ⟨?_, ?_⟩
  · simp only [addMessage, hmk]
  · simp [mkStoredMessage, jsOrInt, h]

/-- Options passing maxRespawns explicitly as 0. -/
def demoOpts9 : AddMessageOptions :=
  { queue := "q", payload := "x", startAt := none, maxRetries := none,
    interval := some 1000, maxRespawns := some 0, cronPattern := none }

/-- Empty table for the C9 demonstration. -/
def demoStore9 : Store := { messages := [], nextId := 1 }

/-- C9 witness: inserting demoOpts9 (maxRespawns = 0) at time 0 equals
inserting the same options with maxRespawns omitted, and the stored
row has maxRespawns -1. -/
theorem c9_maxRespawns_zero_is_unbounded_witness :
    addMessage 0 demoOpts9 demoStore9 =
      addMessage 0 { demoOpts9 with maxRespawns := none } demoStore9 ∧
    (mkStoredMessage 0 demoStore9.nextId demoOpts9).maxRespawns = -1 :=
  c9_maxRespawns_zero_is_unbounded 0 demoOpts9 demoStore9 (by decide)

/-! Claim C10. -/

/-- C10: markMessageFailed requires the target row to exist: with no
row of that id the source dereferences undefined and throws (modelled
as none); when the row exists the operation always produces a new
store, so under the existence precondition the throwing branch is
unreachable. -/
theorem c10_markMessageFailed_requires_row (now : Int) (id : Nat) (s : Store) :
    (findMessage s id = none → markMessageFailed now id s = none) ∧
    (∀ m, findMessage s id = some m → ∃ s', markMessageFailed now id s = some s') := by
  constructor
  · intro h
    simp only [markMessageFailed, h]
  · intro m h
    simp only [markMessageFailed, h]
    by_cases hr : m.retryCount < m.maxRetries
    · exact ⟨_, by rw [if_pos hr]⟩
    · exact ⟨_, by rw [if_neg hr]⟩

/-- A stored row, private to the C10 demonstration. -/
def msgF10 : QueueMessage :=
  { id := 1, queue := "q", payload := "z", status := Status.processing, startAt := 0,
    retryCount := 0, maxRetries := 0, interval := none, respawnCount := 0,
    maxRespawns := -1, cronPattern := none, createdAt := 0, updatedAt := 0 }

/-- Concrete table holding only row 1. -/
def demoStore10 : Store := { messages := [msgF10], nextId := 2 }

/-- C10 witness: failing the absent row 5 throws (none); failing the
present row 1 succeeds with a new store. -/
theorem c10_markMessageFailed_requires_row_witness :
    markMessageFailed 3 5 demoStore10 = none ∧
    ∃ s', markMessageFailed 3 1 demoStore10 = some s' :=
  ⟨(c10_markMessageFailed_requires_row 3 5 demoStore10).1 (by decide),
   (c10_markMessageFailed_requires_row 3 1 demoStore10).2 msgF10 (by decide)⟩

/-! Claim C3. -/

/-- A pending interval message with maxRespawns 1 and respawnCount 0. -/
def msgI3 : QueueMessage :=
  { id := 1, queue := "q", payload := "i", status := Status.pending, startAt := 0,
    retryCount := 0, maxRetries := 0, interval := some 1000, respawnCount := 0,
    maxRespawns := 1, cronPattern := none, createdAt := 0, updatedAt := 0 }

/-- Concrete table holding only msgI3. -/
def demoStore3 : Store := { messages := [msgI3], nextId := 2 }

/-- C3 (evaluation at the failing input): for the interval message
msgI3 with maxRespawns 1, the first successful execution reschedules it
to 5 + 1000 but leaves respawnCount at 0 (no statement in the source
ever increments respawnCount), so after the second successful
execution — already the claimed total of k + 1 = 2 — the row is again
pending with respawnCount still 0 and startAt 2010, hence eligible for
a third execution, contradicting the claimed exact bound. -/
theorem c3_respawnCount_never_incremented :
    (findMessage (workerCycleSuccess 0 5 0 demoStore3) 1).map
        (fun m => (m.status, m.respawnCount, m.startAt)) =
      some (Status.pending, 0, 1005) ∧
    (findMessage (workerCycleSuccess 1005 1010 0
          (workerCycleSuccess 0 5 0 demoStore3)) 1).map
        (fun m => (m.status, m.respawnCount, m.startAt)) =
      some (Status.pending, 0, 2010) := by
  decide

/-! Claim C4. -/

/-- A pending message carrying both an interval and a cron pattern. -/
def msgC4 : QueueMessage :=
  { id := 1, queue := "q", payload := "c", status := Status.pending, startAt := 0,
    retryCount := 0, maxRetries := 0, interval := some 1000, respawnCount := 0,
    maxRespawns := -1, cronPattern := some "* * * * *", createdAt := 0, updatedAt := 0 }

/-- Concrete table holding only msgC4. -/
def demoStore4 : Store := { messages := [msgC4], nextId := 2 }

/-- C4 counterexample: on msgC4, which has both interval and
cronPattern set, one successful execution issues two rescheduleMessage
calls, not one: both the interval branch and the cron branch of
QueueWorker.start fire. -/
theorem c4_two_reschedules_counterexample :
    ((handleSuccess 0 60000 msgC4 demoStore4).2).length = 2 := by
  decide

/-- C4 amended: when both interval and cronPattern are set (interval
nonzero, respawn cap not reached, cron pattern nonempty), a successful
execution issues exactly two rescheduleMessage calls, interval first
and cron second, and the cron call wins: the stored row ends pending
with startAt equal to the cron next-run instant. -/
theorem c4_cron_overwrites_interval (now cronNext : Int) (m : QueueMessage) (s : Store)
    (i : Int) (p : String) (r : QueueMessage)
    (hi : m.interval = some i) (hi0 : ¬i = 0)
    (hresp : m.maxRespawns = -1 ∨ m.respawnCount < m.maxRespawns)
    (hc : m.cronPattern = some p) (hp : ¬p = "")
    (hr : findMessage s m.id = some r) :
    (handleSuccess now cronNext m s).2 = [⟨m.id, now + i⟩, ⟨m.id, cronNext⟩] ∧
    findMessage (handleSuccess now cronNext m s).1 m.id =
      some { r with status := Status.pending, startAt := cronNext, updatedAt := now } := by
  have hone := findMessage_updateWhere s m.id
    (fun x => { x with status := Status.completed, updatedAt := now }) (fun x => rfl)
  have htwo := findMessage_updateWhere
    (markMessageComplete now m.id s) m.id
    (fun x => { x with startAt := now + i, status := Status.pending, updatedAt := now })
    (fun x => rfl)
  have hthree := findMessage_updateWhere
    (rescheduleMessage now m.id (now + i) (markMessageComplete now m.id s)) m.id
    (fun x => { x with startAt := cronNext, status := Status.pending, updatedAt := now })
    (fun x => rfl)
  simp only [handleSuccess, hi, hc]
  rw [if_neg hi0, if_pos hresp, if_neg hp]
  constructor
  · rfl
  · show findMessage (rescheduleMessage now m.id cronNext
      (rescheduleMessage now m.id (now + i) (markMessageComplete now m.id s))) m.id = _
    simp only [rescheduleMessage, markMessageComplete] at hthree htwo hone ⊢
    rw [hthree, htwo, hone, hr]
    rfl

/-- C4 witness: on msgC4 at now = 0 with cron next instant 60000, the
two calls are interval (0 + 1000) then cron (60000), and the stored row
ends pending at startAt 60000. -/
theorem c4_cron_overwrites_interval_witness :
    (handleSuccess 0 60000 msgC4 demoStore4).2 =
      [⟨msgC4.id, 0 + 1000⟩, ⟨msgC4.id, 60000⟩] ∧
    findMessage (handleSuccess 0 60000 msgC4 demoStore4).1 msgC4.id =
      some { msgC4 with status := Status.pending, startAt := 60000, updatedAt := 0 } :=
  c4_cron_overwrites_interval 0 60000 msgC4 demoStore4 1000 "* * * * *" msgC4
    rfl (by decide) (Or.inl rfl) rfl (by decide) (by decide)

/-! Claim C5. -/

/-- C5 (evaluation of the dispatch protocol): the request
QueueWorker.processMessage posts carries no messageId at all (the
object literal omits the field), so the processResult reply built by
QueueManager — which echoes data.messageId — never satisfies the
worker acceptance guard data.messageId === message.id; the waiting
worker matches no reply produced for its own request. -/
theorem c5_dispatch_correlation_broken (m : QueueMessage) (e : Bool) :
    (processRequest m).messageId = none ∧
    workerAccepts m (managerReply (processRequest m) e) = false := by
  constructor
  · rfl
  · simp [workerAccepts, managerReply, processRequest]

/-! Claim C7. -/

/-- A pending message with a negative interval. -/
def msgN7 : QueueMessage :=
  { id := 1, queue := "q", payload := "n", status := Status.pending, startAt := 0,
    retryCount := 0, maxRetries := 0, interval := some (-1), respawnCount := 0,
    maxRespawns := -1, cronPattern := none, createdAt := 0, updatedAt := 0 }

/-- Concrete table holding only msgN7. -/
def demoStore7 : Store := { messages := [msgN7], nextId := 2 }

/-- C7 counterexample: a stored interval of -1 is truthy in the source
guard, so the recurrence step after a success at instant 1000
reschedules msgN7 to 999 — strictly before the reschedule instant. -/
theorem c7_negative_interval_counterexample :
    (handleSuccess 1000 0 msgN7 demoStore7).2 = [⟨1, 999⟩] ∧ (999 : Int) < 1000 := by
  decide

/-- C7 amended: provided the stored interval, when set, is positive
(a genuine duration) and the cron next-run instant is strictly after
now (the documented contract of the external cron-parser library),
every rescheduleMessage call issued by the recurrence step carries a
startAt strictly greater than the instant now at which it is
computed. -/
theorem c7_reschedule_strictly_future (now cronNext : Int) (m : QueueMessage) (s : Store)
    (hInt : ∀ i, m.interval = some i → 0 < i) (hCron : now < cronNext) :
    ∀ c ∈ (handleSuccess now cronNext m s).2, now < c.time := by
  intro c hc
  cases hi : m.interval with
  | none =>
    cases hcp : m.cronPattern with
    | none =>
      simp only [handleSuccess, hi, hcp] at hc
      exact absurd hc (List.not_mem_nil c)
    | some p =>
      simp only [handleSuccess, hi, hcp] at hc
      by_cases hp : p = ""
      · rw [if_pos hp] at hc
        exact absurd hc (List.not_mem_nil c)
      · rw [if_neg hp] at hc
        simp only [List.nil_append, List.mem_singleton] at hc
        rw [hc]
        exact hCron
  | some i =>
    have hipos : 0 < i := hInt i hi
    have hnow : now < now + i := by omega
    cases hcp : m.cronPattern with
    | none =>
      simp only [handleSuccess, hi, hcp] at hc
      rw [if_neg (by omega : ¬i = 0)] at hc
      by_cases hresp : m.maxRespawns = -1 ∨ m.respawnCount < m.maxRespawns
      · rw [if_pos hresp] at hc
        simp only [List.mem_singleton] at hc
        rw [hc]
        exact hnow
      · rw [if_neg hresp] at hc
        exact absurd hc (List.not_mem_nil c)
    | some p =>
      simp only [handleSuccess, hi, hcp] at hc
      rw [if_neg (by omega : ¬i = 0)] at hc
      by_cases hp : p = ""
      · rw [if_pos hp] at hc
        by_cases hresp : m.maxRespawns = -1 ∨ m.respawnCount < m.maxRespawns
        · rw [if_pos hresp] at hc
          simp only [List.mem_singleton] at hc
          rw [hc]
          exact hnow
        · rw [if_neg hresp] at hc
          exact absurd hc (List.not_mem_nil c)
      · rw [if_neg hp] at hc
        by_cases hresp : m.maxRespawns = -1 ∨ m.respawnCount < m.maxRespawns
        · rw [if_pos hresp] at hc
          rcases List.mem_append.mp hc with h1 | h2
          · simp only [List.mem_singleton] at h1
            rw [h1]
            exact hnow
          · simp only [List.mem_singleton] at h2
            rw [h2]
            exact hCron
        · rw [if_neg hresp] at hc
          simp only [List.nil_append, List.mem_singleton] at hc
          rw [hc]
          exact hCron

/-- A pending message with a positive interval, for the C7 witness. -/
def msgP7 : QueueMessage :=
  { id := 1, queue := "q", payload := "w", status := Status.pending, startAt := 0,
    retryCount := 0, maxRetries := 0, interval := some 1000, respawnCount := 0,
    maxRespawns := -1, cronPattern := none, createdAt := 0, updatedAt := 0 }

/-- Concrete table holding only msgP7. -/
def demoStore7b : Store := { messages := [msgP7], nextId := 2 }

/-- C7 witness: the reschedule the recurrence step issues for msgP7 at
now = 5 has time 1005, strictly after 5. -/
theorem c7_reschedule_strictly_future_witness : (5 : Int) < 1005 :=
  c7_reschedule_strictly_future 5 60000 msgP7 demoStore7b
    (fun i h => by
      have hh : some (1000 : Int) = some i := h
      rw [Option.some_inj] at hh
      omega)
    (by decide) ⟨1, 1005⟩ (by decide)

end QueueSqlite
